import Mathlib

/-!
Shallow embedding of `src/App.tsx` of the SoundClip repository.

The file under verification is a React component.  Its state hooks
(`useState`) become the fields of `AppState`; each event handler becomes a
pure function from the state (and the outcomes of the awaited backend
`invoke` calls, passed in as `Except String` values) to the new state
together with the ordered list of backend commands it invoked; the
`listen` callbacks become `applyEvent`.

A point of JavaScript semantics that matters below: inside an async
handler, a `const` binding produced by `useState` destructuring holds the
value from the render in which the handler closure was created.  Calling
the setter schedules a re-render but never mutates that binding, so code
running later in the same handler invocation (for example a `finally`
block) still reads the value the state had when the handler started.
-/

structure DepsStatus where
  ytdlp : Bool
  ffmpeg : Bool
deriving DecidableEq, Repr

structure Settings where
  save_path : String
  audio_format : String
  playlist_mode : Bool
deriving DecidableEq, Repr

structure VersionInfo where
  local_ : Option String
  latest : Option String
  download_url : Option String
  update_available : Bool
deriving DecidableEq, Repr

structure FfmpegInfo where
  installed : Bool
  version : Option String
deriving DecidableEq, Repr

/-- The React component state: one field per `useState` hook of `App`. -/
structure AppState where
  url : String
  format : String
  playlist : Bool
  savePath : String
  logs : List String
  progress : Rat
  status : String
  downloading : Bool
  deps : DepsStatus
  updating : Bool
  showFfmpegPrompt : Bool
deriving DecidableEq, Repr

/-- The initial values of the `useState` hooks of `App`. -/
def initialState : AppState where
  url := ""
  format := "best"
  playlist := false
  savePath := ""
  logs := []
  progress := 0
  status := "Ready"
  downloading := false
  deps := { ytdlp := true, ffmpeg := true }
  updating := false
  showFfmpegPrompt := false

/-- A backend command sent through `invoke`, with its arguments. -/
inductive Invocation where
  | checkDependencies
  | getSettings
  | saveSettings (settings : Settings)
  | startDownload (url audioFormat : String) (playlist : Bool) (savePath : String)
  | cancelDownload
  | checkYtdlpUpdate
  | updateYtdlp (downloadUrl : String)
  | checkFfmpeg
  | installFfmpeg
deriving DecidableEq, Repr

/-- JavaScript string falsiness: `null` and the empty string are falsy.
Used for the conditions `!ytInfo.local` and `if (ytInfo.download_url)`. -/
def strFalsy : Option String → Bool
  | none => true
  | some t => t == ""

/-- A JavaScript template literal renders `null` as the text `null`. -/
def jsStr : Option String → String
  | none => "null"
  | some t => t

/-- Helper `saveCurrentSettings(overrides?)`: builds the settings record from the
current state, field by field overridden when an override is given, and
invokes `save_settings` with it.  Here we return the record passed to the
invocation. -/
structure SettingsOverrides where
  save_path : Option String := none
  audio_format : Option String := none
  playlist_mode : Option Bool := none

def saveCurrentSettings (s : AppState) (ov : SettingsOverrides) : Settings where
  save_path := ov.save_path.getD s.savePath
  audio_format := ov.audio_format.getD s.format
  playlist_mode := ov.playlist_mode.getD s.playlist

/-- JavaScript `String.prototype.trim`: strips leading and trailing
whitespace.  Modelled structurally on the character list so that it
computes by kernel reduction. -/
def jsTrim (t : String) : String :=
  String.mk (((t.data.dropWhile Char.isWhitespace).reverse.dropWhile
    Char.isWhitespace).reverse)

/-- A backend event received by one of the `listen` subscriptions. -/
inductive BackendEvent where
  | downloadLog (line : String)
  | downloadProgress (percent : Rat)
  | downloadComplete (payload : String)
  | updateLog (line : String)
deriving DecidableEq, Repr

/-- The four `listen` callbacks of `App` (lines 68-92 of `App.tsx`):
`download-log` and `update-log` append the payload to the log list,
`download-progress` overwrites the progress value, and
`download-complete` clears the downloading flag and then branches on
whether the payload is the string `success`. -/
def applyEvent (s : AppState) : BackendEvent → AppState
  | .downloadLog line => { s with logs := s.logs ++ [line] }
  | .downloadProgress p => { s with progress := p }
  | .downloadComplete payload =>
      if payload == "success" then
        { s with downloading := false, status := "Download complete", progress := 100 }
      else
        { s with downloading := false
                 status := "Download failed (" ++ payload ++ ")" }
  | .updateLog line => { s with logs := s.logs ++ [line] }

/-- Processing a sequence of backend events in arrival order. -/
def applyEvents (s : AppState) (es : List BackendEvent) : AppState :=
  es.foldl applyEvent s

/-- Handler `handleDownload`: rejects a URL that is empty after trimming, else
clears the job view, persists the settings and invokes `start_download`
with the trimmed URL.  `r` is the outcome of the awaited
`invoke("start_download", ...)`; its rejection is caught and shown. -/
def handleDownload (s : AppState) (r : Except String Unit) :
    AppState × List Invocation :=
  if jsTrim s.url == "" then
    ({ s with status := "Enter a URL first" }, [])
  else
    let s1 := { s with logs := [], progress := 0, downloading := true,
                       status := "Downloading..." }
    let inv := [Invocation.saveSettings (saveCurrentSettings s {}),
                Invocation.startDownload (jsTrim s.url) s.format s.playlist s.savePath]
    match r with
    | .ok _ => (s1, inv)
    | .error e => ({ s1 with status := "Error: " ++ e, downloading := false }, inv)

/-- Handler `handleCancel`: invokes `cancel_download`; on success reports
`Cancelled` and clears the downloading flag, on rejection shows the
error (and leaves `downloading` untouched). -/
def handleCancel (s : AppState) (r : Except String Unit) :
    AppState × List Invocation :=
  match r with
  | .ok _ => ({ s with status := "Cancelled", downloading := false },
              [Invocation.cancelDownload])
  | .error e => ({ s with status := "Cancel error: " ++ e },
                 [Invocation.cancelDownload])

/-- Outcomes of the backend calls awaited inside `handleCheckUpdate`,
in the order the code can reach them. -/
structure UpdateOracle where
  checkYtdlp : Except String VersionInfo
  updYtdlp : Except String Unit
  checkFf : Except String FfmpegInfo
  checkDeps : Except String DepsStatus
deriving Repr

/-- The yt-dlp part of the `try` block of `handleCheckUpdate`
(lines 160-173): branch on `!ytInfo.local`, then on
`ytInfo.update_available`; in the first two branches `update_ytdlp` is
invoked when `ytInfo.download_url` is truthy, and its rejection
propagates to the `catch`.  Returns the invocations made and either the
state when the branch finished or the state and message at the throw. -/
def ytdlpStep (s : AppState) (v : VersionInfo) (updRes : Except String Unit) :
    List Invocation × Except (AppState × String) AppState :=
  if strFalsy v.local_ then
    let s := { s with status := "yt-dlp not installed — downloading..." }
    if strFalsy v.download_url then ([], .ok s)
    else
      ([Invocation.updateYtdlp (v.download_url.getD "")],
       match updRes with
       | .ok _ => .ok s
       | .error e => .error (s, e))
  else if v.update_available then
    let s := { s with status := "Updating yt-dlp: " ++ jsStr v.local_ ++ " -> "
                                ++ jsStr v.latest ++ "..." }
    if strFalsy v.download_url then ([], .ok s)
    else
      ([Invocation.updateYtdlp (v.download_url.getD "")],
       match updRes with
       | .ok _ => .ok s
       | .error e => .error (s, e))
  else
    ([], .ok { s with logs := s.logs ++ ["yt-dlp " ++ jsStr v.local_
                                         ++ " is up to date"] })

/-- The ffmpeg part of the `try` block (lines 176-187): a missing ffmpeg
only raises the confirmation prompt; an installed one logs its version. -/
def ffmpegStep (s : AppState) (ff : FfmpegInfo) : AppState :=
  if !ff.installed then
    { s with showFfmpegPrompt := true, status := "ffmpeg not found. Install it?" }
  else
    { s with logs := s.logs ++ ["ffmpeg " ++ ff.version.getD "(found)"
                                ++ " is installed"],
             status := "Everything is up to date" }

/-- The whole `try` block of `handleCheckUpdate`: check yt-dlp, maybe
install or update it, check ffmpeg, then `await refreshDeps()`.  A
rejection at any await point stops the block with the state reached so
far and the error message. -/
def checkUpdateBody (s : AppState) (o : UpdateOracle) :
    List Invocation × Except (AppState × String) AppState :=
  match o.checkYtdlp with
  | .error e => ([Invocation.checkYtdlpUpdate], .error (s, e))
  | .ok v =>
    let step := ytdlpStep s v o.updYtdlp
    match step.2 with
    | .error se => (Invocation.checkYtdlpUpdate :: step.1, .error se)
    | .ok s1 =>
      match o.checkFf with
      | .error e => (Invocation.checkYtdlpUpdate :: step.1 ++ [Invocation.checkFfmpeg],
                     .error (s1, e))
      | .ok ff =>
        let s2 := ffmpegStep s1 ff
        match o.checkDeps with
        | .error e =>
            (Invocation.checkYtdlpUpdate :: step.1
              ++ [Invocation.checkFfmpeg, Invocation.checkDependencies],
             .error (s2, e))
        | .ok d =>
            (Invocation.checkYtdlpUpdate :: step.1
              ++ [Invocation.checkFfmpeg, Invocation.checkDependencies],
             .ok { s2 with deps := d })

/-- Handler `handleCheckUpdate` (lines 153-197).  It first sets `updating`,
clears the logs and sets the status, runs the `try` body, routes a
rejection to the `catch` (which sets the status text), and runs the
`finally`.  The `finally` tests `!showFfmpegPrompt`: per the closure
semantics described at the top of this file, that `const` still holds the
value the state had when the handler was invoked (`p0` below), not the
value set during the body. -/
def handleCheckUpdate (s : AppState) (o : UpdateOracle) :
    AppState × List Invocation :=
  let p0 := s.showFfmpegPrompt
  let s1 := { s with updating := true, logs := [], status := "Checking for updates..." }
  let body := checkUpdateBody s1 o
  let s2 := match body.2 with
    | .ok t => t
    | .error (t, e) => { t with status := "Update check failed: " ++ e }
  (if !p0 then { s2 with updating := false } else s2, body.1)

/-- Handler `handleInstallFfmpeg` (lines 199-211): dismisses the prompt, invokes
`install_ffmpeg`, on success refreshes the dependency flags; any
rejection is shown; the `finally` always clears `updating`. -/
def handleInstallFfmpeg (s : AppState) (r : Except String Unit)
    (depsRes : Except String DepsStatus) : AppState × List Invocation :=
  let s := { s with showFfmpegPrompt := false, status := "Installing ffmpeg..." }
  match r with
  | .error e => ({ s with status := "ffmpeg install failed: " ++ e, updating := false },
                 [Invocation.installFfmpeg])
  | .ok _ =>
    let s := { s with status := "ffmpeg installed successfully" }
    match depsRes with
    | .error e => ({ s with status := "ffmpeg install failed: " ++ e, updating := false },
                   [Invocation.installFfmpeg, Invocation.checkDependencies])
    | .ok d => ({ s with deps := d, updating := false },
                [Invocation.installFfmpeg, Invocation.checkDependencies])

/-- Handler `handleDeclineFfmpeg` (lines 213-217): dismisses the prompt, clears
`updating`, sets the status; nothing is invoked. -/
def handleDeclineFfmpeg (s : AppState) : AppState × List Invocation :=
  ({ s with showFfmpegPrompt := false, updating := false,
            status := "ffmpeg installation skipped" }, [])

/-- The `disabled` condition of the Check Update button (line 322). -/
def checkUpdateButtonDisabled (s : AppState) : Bool :=
  s.downloading || s.updating

/-- The progress percents carried by the `download-progress` events of a
stream, in arrival order. -/
def percents : List BackendEvent → List Rat
  | [] => []
  | BackendEvent.downloadProgress p :: es => p :: percents es
  | _ :: es => percents es

/-- The raw lines carried by the `download-log` and `update-log` events of
a stream, in arrival order. -/
def logLines : List BackendEvent → List String
  | [] => []
  | BackendEvent.downloadLog line :: es => line :: logLines es
  | BackendEvent.updateLog line :: es => line :: logLines es
  | _ :: es => logLines es

/-- True when the stream contains no completion event. -/
def noComplete : List BackendEvent → Bool
  | [] => true
  | BackendEvent.downloadComplete _ :: _ => false
  | _ :: es => noComplete es

/-- A list of rationals is non-decreasing. -/
def nondecreasing : List Rat → Bool
  | a :: b :: l => decide (a ≤ b) && nondecreasing (b :: l)
  | _ => true

/-- Every element of the list is at most 100. -/
def allLe100 : List Rat → Bool
  | [] => true
  | a :: l => decide (a ≤ 100) && allLe100 l

/-- The successive values taken by the `progress` state while a stream of
events is processed by the `listen` callbacks: the value before the first
event followed by the value after each event. -/
def progressTrace (s : AppState) : List BackendEvent → List Rat
  | [] => [s.progress]
  | e :: es => s.progress :: progressTrace (applyEvent s e) es

/-- Modelled from the spec: the event stream of one job as the backend
(ProcessSupervisor and OutputParser, which are not under `src/`) delivers
it.  Per the spec, `ProgressEvent.percent` lies in 0..100 and never
decreases within one job, and events are delivered in production order
with the completion event strictly last; the completion payload carries
the terminal outcome (the string `success`, an error code, or
`cancelled`). -/
def specJobStream (start : Rat) (outcome : String)
    (es : List BackendEvent) : Prop :=
  ∃ body, es = body ++ [BackendEvent.downloadComplete outcome] ∧
    noComplete body = true ∧
    nondecreasing (start :: percents body) = true ∧
    allLe100 (start :: percents body) = true

/-- Every invocation made by the yt-dlp step is an `update_ytdlp` call. -/
theorem ytdlpStep_inv_mem {i : Invocation} {s : AppState} {v : VersionInfo}
    {ur : Except String Unit} (h : i ∈ (ytdlpStep s v ur).1) :
    ∃ w, i = Invocation.updateYtdlp w := by
  cases h1 : strFalsy v.local_ <;> cases h2 : strFalsy v.download_url <;>
    cases h3 : v.update_available <;> cases ur <;>
      simp [ytdlpStep, h1, h2, h3] at h <;> exact ⟨_, h⟩

/-- The update-check flow only ever invokes the update-check, yt-dlp
update, ffmpeg-check and dependency-check commands. -/
theorem checkUpdateBody_inv_mem {i : Invocation} {s : AppState}
    {o : UpdateOracle} (h : i ∈ (checkUpdateBody s o).1) :
    i = Invocation.checkYtdlpUpdate ∨ (∃ w, i = Invocation.updateYtdlp w) ∨
    i = Invocation.checkFfmpeg ∨ i = Invocation.checkDependencies := by
  unfold checkUpdateBody at h
  cases hcy : o.checkYtdlp with
  | error e =>
    rw [hcy] at h
    simp at h
    exact Or.inl h
  | ok v =>
    rw [hcy] at h
    cases hst : (ytdlpStep s v o.updYtdlp).2 with
    | error se =>
      simp only [hst] at h
      simp at h
      rcases h with h | h
      · exact Or.inl h
      · exact Or.inr (Or.inl (ytdlpStep_inv_mem h))
    | ok s1 =>
      simp only [hst] at h
      cases hcf : o.checkFf with
      | error e =>
        rw [hcf] at h
        simp at h
        rcases h with h | h | h
        · exact Or.inl h
        · exact Or.inr (Or.inl (ytdlpStep_inv_mem h))
        · exact Or.inr (Or.inr (Or.inl h))
      | ok ff =>
        rw [hcf] at h
        cases hcd : o.checkDeps with
        | error e =>
          rw [hcd] at h
          simp at h
          rcases h with h | h | h | h
          · exact Or.inl h
          · exact Or.inr (Or.inl (ytdlpStep_inv_mem h))
          · exact Or.inr (Or.inr (Or.inl h))
          · exact Or.inr (Or.inr (Or.inr h))
        | ok d =>
          rw [hcd] at h
          simp at h
          rcases h with h | h | h | h
          · exact Or.inl h
          · exact Or.inr (Or.inl (ytdlpStep_inv_mem h))
          · exact Or.inr (Or.inr (Or.inl h))
          · exact Or.inr (Or.inr (Or.inr h))

/-- The invocations of `handleCheckUpdate` are those of its body. -/
theorem handleCheckUpdate_inv (s : AppState) (o : UpdateOracle) :
    (handleCheckUpdate s o).2 =
      (checkUpdateBody
        { s with updating := true, logs := [], status := "Checking for updates..." }
        o).1 := by
  rfl

/-- The progress trace always starts with the current progress value. -/
theorem progressTrace_eq_cons (s : AppState) (es : List BackendEvent) :
    ∃ t, progressTrace s es = s.progress :: t := by
  cases es with
  | nil => exact ⟨[], rfl⟩
  | cons e es => exact ⟨progressTrace (applyEvent s e) es, rfl⟩

/-- Prepending a value below the head of a trace keeps it non-decreasing. -/
theorem nondecreasing_trace_cons (s s' : AppState) (rest : List BackendEvent)
    (hle : s.progress ≤ s'.progress)
    (h1 : nondecreasing (progressTrace s' rest) = true) :
    nondecreasing (s.progress :: progressTrace s' rest) = true := by
  obtain ⟨t, ht⟩ := progressTrace_eq_cons s' rest
  rw [ht] at h1 ⊢
  simp [nondecreasing, hle, h1]

/-- Prepending a value to a trace keeps its last element. -/
theorem trace_cons_getLast (p : Rat) (s' : AppState)
    (rest : List BackendEvent) :
    (p :: progressTrace s' rest).getLast? = (progressTrace s' rest).getLast? := by
  obtain ⟨t, ht⟩ := progressTrace_eq_cons s' rest
  rw [ht]
  simp

/-- Processing a completion-free event stream with non-decreasing percents
bounded by 100, followed by the completion event of any outcome, yields a
non-decreasing progress trace; if the outcome is `success` the trace ends
at 100. -/
theorem progressTrace_job (body : List BackendEvent) :
    ∀ (s : AppState) (outcome : String), noComplete body = true →
    nondecreasing (s.progress :: percents body) = true →
    allLe100 (s.progress :: percents body) = true →
    nondecreasing (progressTrace s
      (body ++ [BackendEvent.downloadComplete outcome])) = true ∧
    (outcome = "success" →
      (progressTrace s
        (body ++ [BackendEvent.downloadComplete outcome])).getLast? = some 100) := by
  induction body with
  | nil =>
    intro s outcome _ _ h100
    simp [allLe100, percents] at h100
    cases hb : (outcome == "success") with
    | true =>
      have hs : outcome = "success" := by simpa using hb
      subst hs
      constructor
      · simp [progressTrace, applyEvent, nondecreasing, h100]
      · intro _
        simp [progressTrace, applyEvent]
    | false =>
      have hne : ¬ outcome = "success" := by simpa using hb
      constructor
      · simp [progressTrace, applyEvent, hb, nondecreasing]
      · intro hcon
        exact absurd hcon hne
  | cons e bs ih =>
    intro s outcome hnc hmono h100
    cases e with
    | downloadComplete payload => simp [noComplete] at hnc
    | downloadLog line =>
      have ihr := ih (applyEvent s (BackendEvent.downloadLog line)) outcome
        (by simpa [noComplete] using hnc)
        (by simpa [applyEvent, percents] using hmono)
        (by simpa [applyEvent, percents] using h100)
      refine ⟨nondecreasing_trace_cons s _ _ (le_refl _) ihr.1, ?_⟩
      intro hs
      simp only [List.cons_append, progressTrace, trace_cons_getLast]
      exact ihr.2 hs
    | updateLog line =>
      have ihr := ih (applyEvent s (BackendEvent.updateLog line)) outcome
        (by simpa [noComplete] using hnc)
        (by simpa [applyEvent, percents] using hmono)
        (by simpa [applyEvent, percents] using h100)
      refine ⟨nondecreasing_trace_cons s _ _ (le_refl _) ihr.1, ?_⟩
      intro hs
      simp only [List.cons_append, progressTrace, trace_cons_getLast]
      exact ihr.2 hs
    | downloadProgress q =>
      simp [percents, nondecreasing] at hmono
      simp [percents, allLe100] at h100
      have ihr := ih (applyEvent s (BackendEvent.downloadProgress q)) outcome
        (by simpa [noComplete] using hnc)
        (by simpa [applyEvent] using hmono.2)
        (by simp [applyEvent, allLe100, h100.2.1, h100.2.2])
      refine ⟨nondecreasing_trace_cons s _ _ hmono.1 ihr.1, ?_⟩
      intro hs
      simp only [List.cons_append, progressTrace, trace_cons_getLast]
      exact ihr.2 hs

/-- C1: the spec says a completion event carrying the outcome `cancelled`
is reported to the user as its own distinct terminal outcome and never
displayed as a failure.  The `download-complete` listener treats every
payload other than `success` as a failure, so the payload `cancelled`
yields the status text `Download failed (cancelled)`; only the
`handleCancel` success path shows the distinct `Cancelled` status. -/
theorem cancelled_outcome_shown_as_failure :
    (applyEvent initialState (BackendEvent.downloadComplete "cancelled")).status
      = "Download failed (cancelled)" ∧
    (handleCancel { initialState with downloading := true } (Except.ok ())).1.status
      = "Cancelled" := by
  decide

/-- C2: run Check Update from the idle state with yt-dlp up to date and
ffmpeg missing.  The confirmation prompt is raised, but because the
`finally` block of `handleCheckUpdate` reads the closure value that
`showFfmpegPrompt` had when the handler started (false), it clears
`updating`, so the Check Update control is enabled again while the prompt
is still displayed and unanswered, contradicting the claim that the
updating flag stays set until the prompt is answered. -/
theorem ffmpeg_prompt_leaves_updating_cleared :
    (handleCheckUpdate initialState
        ⟨Except.ok ⟨some "2024.01.01", some "2024.01.01", none, false⟩,
         Except.ok (), Except.ok ⟨false, none⟩,
         Except.ok ⟨true, false⟩⟩).1.showFfmpegPrompt = true ∧
    (handleCheckUpdate initialState
        ⟨Except.ok ⟨some "2024.01.01", some "2024.01.01", none, false⟩,
         Except.ok (), Except.ok ⟨false, none⟩,
         Except.ok ⟨true, false⟩⟩).1.updating = false ∧
    checkUpdateButtonDisabled (handleCheckUpdate initialState
        ⟨Except.ok ⟨some "2024.01.01", some "2024.01.01", none, false⟩,
         Except.ok (), Except.ok ⟨false, none⟩,
         Except.ok ⟨true, false⟩⟩).1 = false := by
  decide

/-- C3: for every event stream of one job as the spec-modelled backend
delivers it (percents within 0..100 and non-decreasing, completion
strictly last) and for every terminal outcome — success, an error code,
or cancelled — the sequence of progress values observed by the UI is
non-decreasing over the job lifetime, and when the job completes with
outcome `success` the final observed value is 100. -/
theorem progress_nondecreasing_ending_100 (s : AppState) (outcome : String)
    (es : List BackendEvent) (h : specJobStream s.progress outcome es) :
    nondecreasing (progressTrace s es) = true ∧
    (outcome = "success" → (progressTrace s es).getLast? = some 100) := by
  obtain ⟨body, rfl, hnc, hmono, h100⟩ := h
  exact progressTrace_job body s outcome hnc hmono h100

/-- Witness for C3 at concrete job streams: a successful job (trace
non-decreasing and ending at 100) and a cancelled job (trace
non-decreasing). -/
theorem progress_nondecreasing_ending_100_witness :
    nondecreasing (progressTrace initialState
      [BackendEvent.downloadProgress 30, BackendEvent.downloadLog "line",
       BackendEvent.downloadProgress 60,
       BackendEvent.downloadComplete "success"]) = true ∧
    (progressTrace initialState
      [BackendEvent.downloadProgress 30, BackendEvent.downloadLog "line",
       BackendEvent.downloadProgress 60,
       BackendEvent.downloadComplete "success"]).getLast? = some 100 ∧
    nondecreasing (progressTrace initialState
      [BackendEvent.downloadProgress 30,
       BackendEvent.downloadComplete "cancelled"]) = true :=
  ⟨(progress_nondecreasing_ending_100 initialState "success"
      [BackendEvent.downloadProgress 30, BackendEvent.downloadLog "line",
       BackendEvent.downloadProgress 60, BackendEvent.downloadComplete "success"]
      ⟨[BackendEvent.downloadProgress 30, BackendEvent.downloadLog "line",
        BackendEvent.downloadProgress 60], rfl, by decide, by decide, by decide⟩).1,
   (progress_nondecreasing_ending_100 initialState "success"
      [BackendEvent.downloadProgress 30, BackendEvent.downloadLog "line",
       BackendEvent.downloadProgress 60, BackendEvent.downloadComplete "success"]
      ⟨[BackendEvent.downloadProgress 30, BackendEvent.downloadLog "line",
        BackendEvent.downloadProgress 60], rfl, by decide, by decide, by decide⟩).2
     rfl,
   (progress_nondecreasing_ending_100 initialState "cancelled"
      [BackendEvent.downloadProgress 30, BackendEvent.downloadComplete "cancelled"]
      ⟨[BackendEvent.downloadProgress 30], rfl, by decide, by decide,
        by decide⟩).1⟩

/-- C5: a download request whose URL is empty is rejected before
invocation: the status shows an error, nothing is invoked (in particular
not `start_download`), and the rest of the state is untouched, so no job
is started. -/
theorem empty_url_download_rejected (s : AppState) (r : Except String Unit)
    (h : s.url = "") :
    handleDownload s r = ({ s with status := "Enter a URL first" }, []) := by
  have hc : (jsTrim s.url == "") = true := by rw [h]; decide
  simp [handleDownload, hc]

/-- Witness for C5 at the initial state, whose URL is empty. -/
theorem empty_url_download_rejected_witness :
    handleDownload initialState (Except.ok ())
      = ({ initialState with status := "Enter a URL first" }, []) :=
  empty_url_download_rejected initialState (Except.ok ()) rfl

/-- C7: processing any sequence of backend events appends exactly the
lines of the `download-log` and `update-log` events to the end of the log
list, once each and in arrival order; progress and completion events
leave the log list untouched, so no line is lost or reordered. -/
theorem log_lines_appended_in_order (s : AppState) (es : List BackendEvent) :
    (applyEvents s es).logs = s.logs ++ logLines es := by
  induction es generalizing s with
  | nil => simp [applyEvents, logLines]
  | cons e es ih =>
    rw [show applyEvents s (e :: es) = applyEvents (applyEvent s e) es from rfl, ih]
    cases e with
    | downloadLog line => simp [applyEvent, logLines]
    | downloadProgress p => simp [applyEvent, logLines]
    | downloadComplete payload =>
        cases hp : (payload == "success") <;> simp [applyEvent, logLines, hp]
    | updateLog line => simp [applyEvent, logLines]

/-- C8: any `start_download` invocation carries the trimmed input URL,
and an input that trims to nothing (whitespace-only or empty) is rejected
exactly like the empty URL: same status, no invocation. -/
theorem download_url_trimmed (s : AppState) (r : Except String Unit) :
    (∀ u f p d, Invocation.startDownload u f p d ∈ (handleDownload s r).2 →
      u = jsTrim s.url) ∧
    (jsTrim s.url = "" →
      handleDownload s r = ({ s with status := "Enter a URL first" }, [])) := by
  constructor
  · intro u f p d hm
    by_cases h : jsTrim s.url = ""
    · have hc : (jsTrim s.url == "") = true := by simp [h]
      simp [handleDownload, hc] at hm
    · have hc : (jsTrim s.url == "") = false := by simp [h]
      cases r <;> simp [handleDownload, hc] at hm <;> exact hm.1
  · intro h
    have hc : (jsTrim s.url == "") = true := by simp [h]
    simp [handleDownload, hc]

/-- Witness for C8 at a whitespace-only URL. -/
theorem download_url_trimmed_witness :
    handleDownload { initialState with url := " \t " } (Except.ok ())
      = ({ initialState with url := " \t ", status := "Enter a URL first" }, []) :=
  (download_url_trimmed { initialState with url := " \t " } (Except.ok ())).2
    (by decide)

/-- C9: an accepted download request leaves the job view reset (log list
cleared, progress 0) and invokes `save_settings` with the current
settings record before `start_download`, in that order. -/
theorem accepted_download_resets_then_saves (s : AppState)
    (r : Except String Unit) (h : jsTrim s.url ≠ "") :
    (handleDownload s r).1.logs = [] ∧
    (handleDownload s r).1.progress = 0 ∧
    (handleDownload s r).2 =
      [Invocation.saveSettings (saveCurrentSettings s {}),
       Invocation.startDownload (jsTrim s.url) s.format s.playlist s.savePath] := by
  have hc : (jsTrim s.url == "") = false := by simp [h]
  cases r <;> simp [handleDownload, hc]

/-- C10: `install_ffmpeg` is only ever invoked by the confirm action of
the prompt (`handleInstallFfmpeg`): the update flow, the download flow
and the cancel flow never invoke it, and when ffmpeg is reported missing
the update flow only raises the confirmation prompt; declining dismisses
the prompt, ends the flow and invokes nothing. -/
theorem install_ffmpeg_only_after_confirm (s : AppState) (o : UpdateOracle)
    (r : Except String Unit) (d : Except String DepsStatus) :
    Invocation.installFfmpeg ∉ (handleCheckUpdate s o).2 ∧
    Invocation.installFfmpeg ∉ (handleDownload s r).2 ∧
    Invocation.installFfmpeg ∉ (handleCancel s r).2 ∧
    handleDeclineFfmpeg s =
      ({ s with showFfmpegPrompt := false, updating := false, status := "ffmpeg installation skipped" }, []) ∧
    (handleInstallFfmpeg s r d).2.head? = some Invocation.installFfmpeg ∧
    (∀ v : VersionInfo, ∀ ver : Option String, o.checkYtdlp = Except.ok v →
      strFalsy v.local_ = false → v.update_available = false →
      o.checkFf = Except.ok ⟨false, ver⟩ →
      (handleCheckUpdate s o).1.showFfmpegPrompt = true) := by
  refine ⟨?_, ?_, ?_, ?_, ?_, ?_⟩
  · intro h
    rw [handleCheckUpdate_inv] at h
    rcases checkUpdateBody_inv_mem h with h | ⟨w, h⟩ | h | h <;> simp at h
  · intro h
    by_cases hu : jsTrim s.url = ""
    · have hc : (jsTrim s.url == "") = true := by simp [hu]
      simp [handleDownload, hc] at h
    · have hc : (jsTrim s.url == "") = false := by simp [hu]
      cases r <;> simp [handleDownload, hc] at h
  · cases r <;> simp [handleCancel]
  · rfl
  · cases r <;> cases d <;> rfl
  · intro v ver hv hl ha hf
    cases hp : s.showFfmpegPrompt <;> cases hcd : o.checkDeps <;>
      simp [handleCheckUpdate, checkUpdateBody, ytdlpStep, ffmpegStep,
        hv, hl, ha, hf, hp, hcd]

/-- Witness for C10 at concrete inputs. -/
theorem install_ffmpeg_only_after_confirm_witness :
    Invocation.installFfmpeg ∉ (handleCheckUpdate initialState
      ⟨Except.ok ⟨some "1", some "1", none, false⟩, Except.ok (),
       Except.ok ⟨true, none⟩, Except.ok ⟨true, true⟩⟩).2 ∧
    (handleInstallFfmpeg initialState (Except.ok ())
      (Except.ok ⟨true, true⟩)).2.head? = some Invocation.installFfmpeg ∧
    (handleCheckUpdate initialState
      ⟨Except.ok ⟨some "1", some "1", none, false⟩, Except.ok (),
       Except.ok ⟨false, none⟩, Except.ok ⟨true, false⟩⟩).1.showFfmpegPrompt
      = true :=
  ⟨(install_ffmpeg_only_after_confirm initialState
      ⟨Except.ok ⟨some "1", some "1", none, false⟩, Except.ok (),
       Except.ok ⟨true, none⟩, Except.ok ⟨true, true⟩⟩
      (Except.ok ()) (Except.ok ⟨true, true⟩)).1,
   (install_ffmpeg_only_after_confirm initialState
      ⟨Except.ok ⟨some "1", some "1", none, false⟩, Except.ok (),
       Except.ok ⟨true, none⟩, Except.ok ⟨true, true⟩⟩
      (Except.ok ()) (Except.ok ⟨true, true⟩)).2.2.2.2.1,
   (install_ffmpeg_only_after_confirm initialState
      ⟨Except.ok ⟨some "1", some "1", none, false⟩, Except.ok (),
       Except.ok ⟨false, none⟩, Except.ok ⟨true, false⟩⟩
      (Except.ok ()) (Except.ok ⟨true, true⟩)).2.2.2.2.2
     ⟨some "1", some "1", none, false⟩ none rfl (by decide) rfl rfl⟩

/-- C4: when the update check reports no local yt-dlp version but a
populated download URL, first-time installation proceeds: `update_ytdlp`
is invoked with that URL even though `update_available` is false. -/
theorem first_install_invokes_update_ytdlp (s : AppState) (o : UpdateOracle)
    (v : VersionInfo) (u : String) (hv : o.checkYtdlp = Except.ok v)
    (hl : v.local_ = none) (hd : v.download_url = some u) (hu : u ≠ "")
    (ha : v.update_available = false) :
    Invocation.updateYtdlp u ∈ (handleCheckUpdate s o).2 := by
  rw [handleCheckUpdate_inv]
  have hstep : (ytdlpStep
      { s with updating := true, logs := [], status := "Checking for updates..." }
      v o.updYtdlp).1 = [Invocation.updateYtdlp u] := by
    have h2 : strFalsy v.download_url = false := by simp [strFalsy, hd, hu]
    cases o.updYtdlp <;> simp [ytdlpStep, strFalsy, hl, h2, hd, hu]
  unfold checkUpdateBody
  rw [hv]
  cases hst : (ytdlpStep
      { s with updating := true, logs := [], status := "Checking for updates..." }
      v o.updYtdlp).2 with
  | error se => simp only [hst]; simp [hstep]
  | ok s1 =>
    simp only [hst]
    cases o.checkFf with
    | error e => simp [hstep]
    | ok ff => cases o.checkDeps <;> simp [hstep]

/-- Witness for C4: a concrete oracle reporting yt-dlp uninstalled with a
populated download URL and `update_available` false. -/
theorem first_install_invokes_update_ytdlp_witness :
    Invocation.updateYtdlp "https://example.com/yt-dlp" ∈
      (handleCheckUpdate initialState
        ⟨Except.ok ⟨none, some "2024.06.10", some "https://example.com/yt-dlp", false⟩,
         Except.ok (), Except.ok ⟨true, some "7.0"⟩, Except.ok ⟨true, true⟩⟩).2 :=
  first_install_invokes_update_ytdlp initialState
    ⟨Except.ok ⟨none, some "2024.06.10", some "https://example.com/yt-dlp", false⟩,
     Except.ok (), Except.ok ⟨true, some "7.0"⟩, Except.ok ⟨true, true⟩⟩
    ⟨none, some "2024.06.10", some "https://example.com/yt-dlp", false⟩
    "https://example.com/yt-dlp" rfl rfl rfl (by decide) rfl

/-- C6: every failing backend invocation is surfaced as user-visible
status text: a failing `start_download` (on an accepted URL), a failing
`cancel_download`, a failure at the update-check awaits (shown here both
for a failing `check_ytdlp_update` and for a failing `check_ffmpeg`
reached with yt-dlp up to date), and a failing `install_ffmpeg` each set
the status to a message carrying the error. -/
theorem backend_errors_surfaced (s : AppState) (e : String) :
    (jsTrim s.url ≠ "" →
      (handleDownload s (Except.error e)).1.status = "Error: " ++ e) ∧
    (handleCancel s (Except.error e)).1.status = "Cancel error: " ++ e ∧
    (∀ o : UpdateOracle, o.checkYtdlp = Except.error e →
      (handleCheckUpdate s o).1.status = "Update check failed: " ++ e) ∧
    (∀ o : UpdateOracle, ∀ v : VersionInfo, o.checkYtdlp = Except.ok v →
      strFalsy v.local_ = false → v.update_available = false →
      o.checkFf = Except.error e →
      (handleCheckUpdate s o).1.status = "Update check failed: " ++ e) ∧
    (∀ d : Except String DepsStatus,
      (handleInstallFfmpeg s (Except.error e) d).1.status
        = "ffmpeg install failed: " ++ e) := by
  refine ⟨?_, ?_, ?_, ?_, ?_⟩
  · intro h
    have hc : (jsTrim s.url == "") = false := by simp [h]
    simp [handleDownload, hc]
  · simp [handleCancel]
  · intro o ho
    cases hp : s.showFfmpegPrompt <;>
      simp [handleCheckUpdate, checkUpdateBody, ho, hp]
  · intro o v hv hl ha hf
    cases hp : s.showFfmpegPrompt <;>
      simp [handleCheckUpdate, checkUpdateBody, ytdlpStep, hv, hl, ha, hf, hp]
  · intro d
    cases d <;> simp [handleInstallFfmpeg]

/-- Witness for C6 at concrete failing invocations. -/
theorem backend_errors_surfaced_witness :
    (handleDownload { initialState with url := "u" } (Except.error "boom")).1.status
      = "Error: " ++ "boom" ∧
    (handleCancel { initialState with url := "u" } (Except.error "boom")).1.status
      = "Cancel error: " ++ "boom" ∧
    (handleCheckUpdate { initialState with url := "u" }
        ⟨Except.error "boom", Except.ok (), Except.ok ⟨true, none⟩,
         Except.ok ⟨true, true⟩⟩).1.status = "Update check failed: " ++ "boom" ∧
    (handleCheckUpdate { initialState with url := "u" }
        ⟨Except.ok ⟨some "2024.06.10", some "2024.06.10", none, false⟩,
         Except.ok (), Except.error "boom",
         Except.ok ⟨true, true⟩⟩).1.status = "Update check failed: " ++ "boom" ∧
    (handleInstallFfmpeg { initialState with url := "u" } (Except.error "boom")
        (Except.ok ⟨true, true⟩)).1.status = "ffmpeg install failed: " ++ "boom" := by
  have h := backend_errors_surfaced { initialState with url := "u" } "boom"
  exact ⟨h.1 (by decide), h.2.1,
    h.2.2.1 ⟨Except.error "boom", Except.ok (), Except.ok ⟨true, none⟩,
      Except.ok ⟨true, true⟩⟩ rfl,
    h.2.2.2.1 ⟨Except.ok ⟨some "2024.06.10", some "2024.06.10", none, false⟩,
        Except.ok (), Except.error "boom", Except.ok ⟨true, true⟩⟩
      ⟨some "2024.06.10", some "2024.06.10", none, false⟩ rfl (by decide) rfl rfl,
    h.2.2.2.2 (Except.ok ⟨true, true⟩)⟩

/-- Witness for C9 at a concrete accepted request. -/
theorem accepted_download_resets_then_saves_witness :
    (handleDownload { initialState with url := " u " } (Except.ok ())).1.logs = [] ∧
    (handleDownload { initialState with url := " u " } (Except.ok ())).1.progress = 0 ∧
    (handleDownload { initialState with url := " u " } (Except.ok ())).2 =
      [Invocation.saveSettings
         (saveCurrentSettings { initialState with url := " u " } {}),
       Invocation.startDownload (jsTrim " u ") "best" false ""] :=
  accepted_download_resets_then_saves { initialState with url := " u " }
    (Except.ok ()) (by decide)
